import Mathlib

/-!
Verification model of the MongoDB Grafana datasource (`src/datasource.ts`).

The TypeScript source is shallowly embedded: all text is modelled as
`List Char`, JavaScript numbers holding integral time values are modelled as
`Int` (JavaScript `Math.floor(x / k)` on an integral `x` is Euclidean/floor
division `x / k` on `Int` for positive `k`), the rxjs response stream consumed
by `lastValueFrom` is modelled as the finite list of its emissions, and the
ambient platform pieces (`Date.prototype.toISOString`, `date-fns`'s `format`,
`getTemplateSrv().replace`, `frameToMetricFindValue`) are modelled from their
published specifications or kept as opaque parameter functions.
-/

namespace MongoDS

/-! ## Digit and number rendering helpers (JavaScript `Number#toString`) -/

/-- Decimal digit character: `dChar n` is the character for digit `n < 10`. -/
def dChar (n : Nat) : Char := Char.ofNat (48 + n)

/-- Lowercase hexadecimal digit character for `n < 16`
(as produced by JavaScript `Number.prototype.toString(16)`). -/
def hChar (n : Nat) : Char := if n < 10 then Char.ofNat (48 + n) else Char.ofNat (87 + n)

/-- Hex digits of a natural number, most significant first, no padding,
with explicit fuel (structural recursion so the kernel can evaluate it).
`hexAux` with fuel at least the digit count equals JavaScript
`n.toString(16)` for a nonnegative integral number. -/
def hexAux : Nat → Nat → List Char
  | 0, _ => []
  | f + 1, n => if n < 16 then [hChar n] else hexAux f (n / 16) ++ [hChar (n % 16)]

/-- Decimal digits of a natural number, most significant first, no padding. -/
def decAux : Nat → Nat → List Char
  | 0, _ => []
  | f + 1, n => if n < 10 then [dChar n] else decAux f (n / 10) ++ [dChar (n % 10)]

/-- JavaScript `n.toString(16)` for an integral number `n`
(64 fuel digits cover every integral double). -/
def jsIntHex (i : Int) : List Char :=
  if i < 0 then '-' :: hexAux 64 (-i).toNat else hexAux 64 i.toNat

/-- JavaScript `n.toString()` (decimal) for an integral number `n`. -/
def jsIntDec (i : Int) : List Char :=
  if i < 0 then '-' :: decAux 64 (-i).toNat else decAux 64 i.toNat

/-- Big-endian 8-hex-digit (32-bit) rendering of a natural number below `16^8`. -/
def hex8 (n : Nat) : List Char :=
  [hChar (n / 16 ^ 7 % 16), hChar (n / 16 ^ 6 % 16), hChar (n / 16 ^ 5 % 16),
   hChar (n / 16 ^ 4 % 16), hChar (n / 16 ^ 3 % 16), hChar (n / 16 ^ 2 % 16),
   hChar (n / 16 % 16), hChar (n % 16)]

/-- Two-digit zero-padded decimal rendering (for `n < 100`). -/
def pad2 (n : Nat) : List Char := [dChar (n / 10), dChar (n % 10)]

/-- Three-digit zero-padded decimal rendering (for `n < 1000`). -/
def pad3 (n : Nat) : List Char := [dChar (n / 100), dChar (n / 10 % 10), dChar (n % 10)]

/-- Four-digit zero-padded decimal rendering (for `n < 10000`). -/
def pad4 (n : Nat) : List Char :=
  [dChar (n / 1000), dChar (n / 100 % 10), dChar (n / 10 % 10), dChar (n % 10)]

/-- Six-digit zero-padded decimal rendering (for `n < 1000000`). -/
def pad6 (n : Nat) : List Char :=
  [dChar (n / 100000), dChar (n / 10000 % 10), dChar (n / 1000 % 10),
   dChar (n / 100 % 10), dChar (n / 10 % 10), dChar (n % 10)]

/-! ## Proleptic Gregorian calendar, as specified for ECMAScript `Date`

`Date.prototype.toISOString` renders the UTC calendar components of a time
value.  ECMA-262 defines `DayFromYear`, `YearFromTime` (the unique `y` with
`DayFromYear(y) ≤ Day(t) < DayFromYear(y+1)`), `InLeapYear`, `MonthFromTime`
(explicit day-within-year thresholds) and `DateFromTime`.  The definitions
below follow those clauses; `yearOf` realizes the `YearFromTime`
characterization by an estimate plus local search, and `yearOf_char` proves
the characterization, so the realization is exact. -/

/-- ECMA-262 `DayFromYear(y)`: the day number of 1 January of year `y`. -/
def dayFromYear (y : Int) : Int :=
  365 * (y - 1970) + (y - 1969) / 4 - (y - 1901) / 100 + (y - 1601) / 400

/-- ECMA-262 `InLeapYear`, phrased on the year number. -/
def isLeap (y : Int) : Bool :=
  (y % 4 == 0 && y % 100 != 0) || y % 400 == 0

/-- ECMA-262 `YearFromTime`, on day numbers: the unique year `y` with
`dayFromYear y ≤ z < dayFromYear (y+1)`. -/
def yearOf (z : Int) : Int :=
  let e := 1970 + (400 * z) / 146097
  if z < dayFromYear e then e - 1
  else if z < dayFromYear (e + 1) then e
  else e + 1

/-- First day-within-year of month `m` (1-based), with `ily` = 1 in leap years;
the thresholds of ECMA-262 `MonthFromTime`/`DateFromTime`. -/
def monthStartDay (m : Nat) (ily : Nat) : Nat :=
  match m with
  | 1 => 0
  | 2 => 31
  | 3 => 59 + ily
  | 4 => 90 + ily
  | 5 => 120 + ily
  | 6 => 151 + ily
  | 7 => 181 + ily
  | 8 => 212 + ily
  | 9 => 243 + ily
  | 10 => 273 + ily
  | 11 => 304 + ily
  | _ => 334 + ily

/-- ECMA-262 `MonthFromTime` (returned 1-based) from the day within the year. -/
def monthFromDwy (dwy ily : Nat) : Nat :=
  if dwy < 31 then 1
  else if dwy < 59 + ily then 2
  else if dwy < 90 + ily then 3
  else if dwy < 120 + ily then 4
  else if dwy < 151 + ily then 5
  else if dwy < 181 + ily then 6
  else if dwy < 212 + ily then 7
  else if dwy < 243 + ily then 8
  else if dwy < 273 + ily then 9
  else if dwy < 304 + ily then 10
  else if dwy < 334 + ily then 11
  else 12

/-- Calendar date: year, month (1-based) and day of month (1-based). -/
structure Civil where
  year : Int
  month : Nat
  day : Nat

/-- UTC calendar date of a day number, per ECMA-262 `YearFromTime`,
`MonthFromTime` and `DateFromTime`. -/
def civilFromDays (z : Int) : Civil :=
  let y := yearOf z
  let ily : Nat := if isLeap y then 1 else 0
  let dwy := (z - dayFromYear y).toNat
  let m := monthFromDwy dwy ily
  { year := y, month := m, day := dwy - monthStartDay m ily + 1 }

/-- Day number of a calendar date, per ECMA-262 `MakeDay`. -/
def daysFromCivil (y : Int) (m d : Nat) : Int :=
  dayFromYear y + (monthStartDay m (if isLeap y then 1 else 0) : Int) + (d : Int) - 1

/-! ## `Date.prototype.toISOString` and ISO-8601 parsing (ECMA-262) -/

/-- Year field of the Date Time String Format: four digits for years 0 to
9999, otherwise a sign followed by six digits (expanded years). -/
def yearChars (y : Int) : List Char :=
  if 0 ≤ y ∧ y ≤ 9999 then pad4 y.toNat
  else if y < 0 then '-' :: pad6 (-y).toNat
  else '+' :: pad6 y.toNat

/-- The `List Char` rendering of `Date.prototype.toISOString` on the time
value `t` (epoch milliseconds), per ECMA-262: UTC calendar fields at
millisecond precision with the `Z` designator. -/
def toISOChars (t : Int) : List Char :=
  let msd := (t % 86400000).toNat
  let c := civilFromDays (t / 86400000)
  yearChars c.year ++ ('-' :: (pad2 c.month ++ ('-' :: (pad2 c.day ++
  ('T' :: (pad2 (msd / 3600000) ++ (':' :: (pad2 (msd % 3600000 / 60000) ++
  (':' :: (pad2 (msd % 60000 / 1000) ++ ('.' :: (pad3 (msd % 1000) ++ ['Z']))))))))))))

/-- Value of a decimal digit character, if it is one. -/
def digitVal? (c : Char) : Option Nat :=
  if 48 ≤ c.toNat ∧ c.toNat ≤ 57 then some (c.toNat - 48) else none

/-- Read exactly `k` decimal digits (most significant first) onto an
accumulator, returning the value and the rest of the text. -/
def readNAux : Nat → Nat → List Char → Option (Nat × List Char)
  | 0, acc, l => some (acc, l)
  | _ + 1, _, [] => none
  | k + 1, acc, c :: l =>
    match digitVal? c with
    | some v => readNAux k (acc * 10 + v) l
    | none => none

/-- Read exactly `k` decimal digits, returning their value and the rest. -/
def readN (k : Nat) (l : List Char) : Option (Nat × List Char) :=
  readNAux k 0 l

/-- Expect one literal character and return the rest of the text. -/
def litC (c : Char) : List Char → Option (List Char)
  | d :: l => if d = c then some l else none
  | [] => none

/-- ECMA-262 parsing of a Date Time String Format string of the shape
produced by `toISOString`: a four-digit or signed six-digit year field. -/
def readYear : List Char → Option (Int × List Char)
  | [] => none
  | c :: l =>
    if c = '+' then (readN 6 l).map (fun p => ((p.1 : Int), p.2))
    else if c = '-' then (readN 6 l).map (fun p => (-(p.1 : Int), p.2))
    else (readN 4 (c :: l)).map (fun p => ((p.1 : Int), p.2))

/-- Range checks on the parsed calendar fields, per the Date Time String
Format grammar (hours `24` only as the end-of-day instant). -/
def isoFieldsOk (mo d h mi s ms : Nat) : Prop :=
  1 ≤ mo ∧ mo ≤ 12 ∧ 1 ≤ d ∧ d ≤ 31 ∧
  (h < 24 ∨ (h = 24 ∧ mi = 0 ∧ s = 0 ∧ ms = 0)) ∧ mi < 60 ∧ s < 60

instance (mo d h mi s ms : Nat) : Decidable (isoFieldsOk mo d h mi s ms) := by
  unfold isoFieldsOk; infer_instance

/-- Parse `HH:mm:ss.sssZ` (the tail of the Date Time String Format) and
combine all fields per ECMA-262 `MakeDay`/`MakeTime`/`TimeClip`. -/
def parseTimeTail (y : Int) (mo d : Nat) (r6 : List Char) : Option Int :=
  match readN 2 r6 with
  | none => none
  | some (h, r7) =>
  match litC ':' r7 with
  | none => none
  | some r8 =>
  match readN 2 r8 with
  | none => none
  | some (mi, r9) =>
  match litC ':' r9 with
  | none => none
  | some r10 =>
  match readN 2 r10 with
  | none => none
  | some (s, r11) =>
  match litC '.' r11 with
  | none => none
  | some r12 =>
  match readN 3 r12 with
  | none => none
  | some (ms, r13) =>
  match litC 'Z' r13 with
  | none => none
  | some r14 =>
  if r14 = [] ∧ isoFieldsOk mo d h mi s ms then
    if (daysFromCivil y mo d * 86400000 +
        ((h * 3600000 + mi * 60000 + s * 1000 + ms : Nat) : Int)).natAbs ≤ 8640000000000000 then
      some (daysFromCivil y mo d * 86400000 +
        ((h * 3600000 + mi * 60000 + s * 1000 + ms : Nat) : Int))
    else none
  else none

/-- ECMA-262 parsing of a Date Time String Format string of the shape
produced by `toISOString`: year, then `-MM-DDTHH:mm:ss.sssZ`; the fields are
range-checked per the grammar, combined per `MakeDay`/`MakeTime`, and the
result is subject to the `TimeClip` range. -/
def parseIsoChars (l : List Char) : Option Int :=
  match readYear l with
  | none => none
  | some (y, r1) =>
  match litC '-' r1 with
  | none => none
  | some r2 =>
  match readN 2 r2 with
  | none => none
  | some (mo, r3) =>
  match litC '-' r3 with
  | none => none
  | some r4 =>
  match readN 2 r4 with
  | none => none
  | some (d, r5) =>
  match litC 'T' r5 with
  | none => none
  | some r6 => parseTimeTail y mo d r6

/-! ## Calendar lemmas -/

/-- Deviation of `dayFromYear` from the line of slope `146097/400` is bounded. -/
theorem dayFromYear_approx (y : Int) :
    -506 ≤ 400 * dayFromYear y - 146097 * (y - 1970) ∧
    400 * dayFromYear y - 146097 * (y - 1970) ≤ 589 := by
  unfold dayFromYear; constructor <;> omega

/-- The `yearOf` realization satisfies the ECMA-262 `YearFromTime`
characterization. -/
theorem yearOf_char (z : Int) :
    dayFromYear (yearOf z) ≤ z ∧ z < dayFromYear (yearOf z + 1) := by
  simp only [yearOf]
  set e := 1970 + (400 * z) / 146097 with he
  have h1 := dayFromYear_approx (e - 1)
  have h2 := dayFromYear_approx e
  have h3 := dayFromYear_approx (e + 1)
  have h4 := dayFromYear_approx (e + 2)
  split_ifs with hA hB
  · rw [show e - 1 + 1 = e from by ring]
    exact ⟨by omega, hA⟩
  · exact ⟨by omega, hB⟩
  · rw [show e + 1 + 1 = e + 2 from by ring]
    constructor <;> omega

/-- Step of the leap-day count at year `y`, 4-year component. -/
theorem step4 (y : Int) :
    (y + 1 - 1969) / 4 - (y - 1969) / 4 = if y % 4 = 0 then 1 else 0 := by
  split <;> omega

/-- Step of the leap-day count at year `y`, 100-year component. -/
theorem step100 (y : Int) :
    (y + 1 - 1901) / 100 - (y - 1901) / 100 = if y % 100 = 0 then 1 else 0 := by
  split <;> omega

/-- Step of the leap-day count at year `y`, 400-year component. -/
theorem step400 (y : Int) :
    (y + 1 - 1601) / 400 - (y - 1601) / 400 = if y % 400 = 0 then 1 else 0 := by
  split <;> omega

/-- A year spans 365 days, or 366 in leap years. -/
theorem daysInYear_spec (y : Int) :
    dayFromYear (y + 1) = dayFromYear y + 365 + (if isLeap y then 1 else 0) := by
  have h4 := step4 y
  have h100 := step100 y
  have h400 := step400 y
  simp only [dayFromYear, isLeap, Bool.or_eq_true, Bool.and_eq_true, beq_iff_eq, bne_iff_ne]
  split_ifs at h4 h100 h400 ⊢ <;> omega

set_option maxHeartbeats 2000000 in
/-- Month extraction and day-of-month reconstruction from a day within the
year: bounds and the recombination identity. -/
theorem month_day_recombine (dwy ily : Nat) (hily : ily ≤ 1) (h : dwy < 365 + ily) :
    1 ≤ monthFromDwy dwy ily ∧ monthFromDwy dwy ily ≤ 12 ∧
    monthStartDay (monthFromDwy dwy ily) ily ≤ dwy ∧
    dwy - monthStartDay (monthFromDwy dwy ily) ily + 1 ≤ 31 ∧
    monthStartDay (monthFromDwy dwy ily) ily +
      (dwy - monthStartDay (monthFromDwy dwy ily) ily + 1) - 1 = dwy := by
  simp only [monthFromDwy]
  split_ifs <;> simp only [monthStartDay] <;> omega

/-- The calendar decomposition inverts through `daysFromCivil`, with field
bounds. -/
theorem civilFromDays_spec (z : Int) :
    daysFromCivil (civilFromDays z).year (civilFromDays z).month (civilFromDays z).day = z ∧
    1 ≤ (civilFromDays z).month ∧ (civilFromDays z).month ≤ 12 ∧
    1 ≤ (civilFromDays z).day ∧ (civilFromDays z).day ≤ 31 := by
  obtain ⟨hlo, hhi⟩ := yearOf_char z
  have hstep := daysInYear_spec (yearOf z)
  simp only [civilFromDays, daysFromCivil]
  set ily : Nat := if isLeap (yearOf z) then 1 else 0 with hily
  have hily1 : ily ≤ 1 := by rw [hily]; split <;> omega
  have hcast : ((ily : Nat) : Int) = if isLeap (yearOf z) then 1 else 0 := by
    rw [hily]; split <;> simp
  set dwy := (z - dayFromYear (yearOf z)).toNat with hdwy
  have hdw : (dwy : Int) = z - dayFromYear (yearOf z) := by
    rw [hdwy]; omega
  have hlt : dwy < 365 + ily := by
    rw [hstep] at hhi
    omega
  obtain ⟨m1, m2, m3, m4, m5⟩ := month_day_recombine dwy ily hily1 hlt
  refine ⟨?_, m1, m2, by omega, m4⟩
  omega

/-! ## Digit rendering / parsing round trips -/

/-- Parsing a rendered decimal digit gives the digit back. -/
theorem digitVal_dChar : ∀ n < 10, digitVal? (dChar n) = some n := by decide

/-- Rendered decimal digits are not sign characters. -/
theorem dChar_not_sign : ∀ n < 10, dChar n ≠ '+' ∧ dChar n ≠ '-' := by decide

/-- One digit-consuming step of `readNAux`. -/
theorem readNAux_digit (k acc n : Nat) (hn : n < 10) (l : List Char) :
    readNAux (k + 1) acc (dChar n :: l) = readNAux k (acc * 10 + n) l := by
  simp [readNAux, digitVal_dChar n hn]

/-- `readN 2` inverts `pad2`. -/
theorem readN_pad2 (n : Nat) (h : n < 100) (r : List Char) :
    readN 2 (pad2 n ++ r) = some (n, r) := by
  simp only [readN, pad2, List.cons_append, List.nil_append]
  rw [readNAux_digit _ _ _ (by omega), readNAux_digit _ _ _ (by omega)]
  simp only [readNAux]
  have : (0 * 10 + n / 10) * 10 + n % 10 = n := by omega
  rw [this]

/-- `readN 3` inverts `pad3`. -/
theorem readN_pad3 (n : Nat) (h : n < 1000) (r : List Char) :
    readN 3 (pad3 n ++ r) = some (n, r) := by
  simp only [readN, pad3, List.cons_append, List.nil_append]
  rw [readNAux_digit _ _ _ (by omega), readNAux_digit _ _ _ (by omega),
    readNAux_digit _ _ _ (by omega)]
  simp only [readNAux]
  have : ((0 * 10 + n / 100) * 10 + n / 10 % 10) * 10 + n % 10 = n := by omega
  rw [this]

/-- `readN 4` inverts `pad4`. -/
theorem readN_pad4 (n : Nat) (h : n < 10000) (r : List Char) :
    readN 4 (pad4 n ++ r) = some (n, r) := by
  simp only [readN, pad4, List.cons_append, List.nil_append]
  rw [readNAux_digit _ _ _ (by omega), readNAux_digit _ _ _ (by omega),
    readNAux_digit _ _ _ (by omega), readNAux_digit _ _ _ (by omega)]
  simp only [readNAux]
  have : (((0 * 10 + n / 1000) * 10 + n / 100 % 10) * 10 + n / 10 % 10) * 10 + n % 10 = n := by
    omega
  rw [this]

/-- `readN 6` inverts `pad6`. -/
theorem readN_pad6 (n : Nat) (h : n < 1000000) (r : List Char) :
    readN 6 (pad6 n ++ r) = some (n, r) := by
  simp only [readN, pad6, List.cons_append, List.nil_append]
  rw [readNAux_digit _ _ _ (by omega), readNAux_digit _ _ _ (by omega),
    readNAux_digit _ _ _ (by omega), readNAux_digit _ _ _ (by omega),
    readNAux_digit _ _ _ (by omega), readNAux_digit _ _ _ (by omega)]
  simp only [readNAux]
  have : (((((0 * 10 + n / 100000) * 10 + n / 10000 % 10) * 10 + n / 1000 % 10) * 10 +
      n / 100 % 10) * 10 + n / 10 % 10) * 10 + n % 10 = n := by
    omega
  rw [this]

/-- `litC` consumes the expected character. -/
theorem litC_cons (c : Char) (r : List Char) : litC c (c :: r) = some r := by
  simp [litC]

/-- `readYear` inverts the four-digit year rendering. -/
theorem readYear_pad4 (n : Nat) (h : n < 10000) (r : List Char) :
    readYear (pad4 n ++ r) = some ((n : Int), r) := by
  obtain ⟨hp, hm⟩ := dChar_not_sign (n / 1000) (by omega)
  simp only [pad4, List.cons_append, List.nil_append, readYear, if_neg hp, if_neg hm]
  rw [show dChar (n / 1000) :: dChar (n / 100 % 10) :: dChar (n / 10 % 10) ::
    dChar (n % 10) :: r = pad4 n ++ r from by simp [pad4]]
  rw [readN_pad4 n h r]
  rfl

/-- `readYear` inverts the expanded positive year rendering. -/
theorem readYear_pos6 (n : Nat) (h : n < 1000000) (r : List Char) :
    readYear ('+' :: (pad6 n ++ r)) = some ((n : Int), r) := by
  simp only [readYear, if_pos rfl]
  rw [readN_pad6 n h r]
  rfl

/-- `readYear` inverts the expanded negative year rendering. -/
theorem readYear_neg6 (n : Nat) (h : n < 1000000) (r : List Char) :
    readYear ('-' :: (pad6 n ++ r)) = some (-(n : Int), r) := by
  have hpm : ('-' : Char) ≠ '+' := by decide
  simp only [readYear, if_neg hpm, if_pos rfl]
  rw [readN_pad6 n h r]
  rfl

/-- `readYear` inverts `yearChars` for years of magnitude below one million. -/
theorem readYear_yearChars (y : Int) (hlo : -1000000 < y) (hhi : y < 1000000)
    (r : List Char) : readYear (yearChars y ++ r) = some (y, r) := by
  unfold yearChars
  split_ifs with hA hB
  · rw [readYear_pad4 y.toNat (by omega) r]
    congr 1
    rw [Int.toNat_of_nonneg hA.1]
  · rw [List.cons_append, readYear_neg6 (-y).toNat (by omega) r]
    congr 1
    rw [Prod.ext_iff]
    refine ⟨?_, rfl⟩
    simp only
    omega
  · rw [List.cons_append, readYear_pos6 y.toNat (by omega) r]
    congr 1
    rw [Int.toNat_of_nonneg (by omega)]

/-- Bounds on the year of a day number within the double-precision day range. -/
theorem yearOf_bounds (z : Int) (h1 : -100000000 ≤ z) (h2 : z ≤ 100000000) :
    -280000 ≤ yearOf z ∧ yearOf z ≤ 280000 := by
  obtain ⟨hlo, hhi⟩ := yearOf_char z
  have ha := dayFromYear_approx (yearOf z)
  have hb := dayFromYear_approx (yearOf z + 1)
  constructor <;> omega

/-- The ISO-8601 rendering of any representable time value parses back to
exactly that value. -/
theorem parseIso_toISO (t : Int) (h : t.natAbs ≤ 8640000000000000) :
    parseIsoChars (toISOChars t) = some t := by
  simp only [toISOChars]
  set z := t / 86400000 with hz
  set msd := (t % 86400000).toNat with hmsd
  have hmsd' : (msd : Int) = t % 86400000 := by rw [hmsd]; omega
  have hmsdlt : msd < 86400000 := by omega
  have hzt : z * 86400000 + (msd : Int) = t := by rw [hz]; omega
  obtain ⟨hrt, hm1, hm2, hd1, hd2⟩ := civilFromDays_spec z
  set c := civilFromDays z with hc
  have hzb1 : -100000000 ≤ z := by omega
  have hzb2 : z ≤ 100000000 := by omega
  have hyb := yearOf_bounds z hzb1 hzb2
  have hyc : c.year = yearOf z := by rw [hc]; rfl
  have hy1 : -1000000 < c.year := by omega
  have hy2 : c.year < 1000000 := by omega
  have hmo100 : c.month < 100 := by omega
  have hd100 : c.day < 100 := by omega
  have hh100 : msd / 3600000 < 100 := by omega
  have hmi100 : msd % 3600000 / 60000 < 100 := by omega
  have hs100 : msd % 60000 / 1000 < 100 := by omega
  have hms1000 : msd % 1000 < 1000 := by omega
  simp only [parseIsoChars, readYear_yearChars c.year hy1 hy2, litC_cons,
    readN_pad2 c.month hmo100, readN_pad2 c.day hd100, parseTimeTail,
    readN_pad2 (msd / 3600000) hh100, readN_pad2 (msd % 3600000 / 60000) hmi100,
    readN_pad2 (msd % 60000 / 1000) hs100, readN_pad3 (msd % 1000) hms1000]
  have hfields : isoFieldsOk c.month c.day (msd / 3600000) (msd % 3600000 / 60000)
      (msd % 60000 / 1000) (msd % 1000) :=
    ⟨hm1, hm2, hd1, hd2, Or.inl (by omega), by omega, by omega⟩
  rw [if_pos (And.intro trivial hfields)]
  have hv : daysFromCivil c.year c.month c.day * 86400000 +
      ((msd / 3600000 * 3600000 + msd % 3600000 / 60000 * 60000 +
        msd % 60000 / 1000 * 1000 + msd % 1000 : Nat) : Int) = t := by
    rw [hrt]
    omega
  rw [hv, if_pos (by omega)]

/-! ## Hexadecimal rendering lemmas -/

/-- Recursive step of `hexAux` above one digit. -/
theorem hexAux_step (f n : Nat) (h16 : 16 ≤ n) :
    hexAux (f + 1) n = hexAux f (n / 16) ++ [hChar (n % 16)] := by
  simp [hexAux, Nat.not_lt.2 h16]

/-- Base case of `hexAux` on one digit. -/
theorem hexAux_base (f m : Nat) (h : m < 16) : hexAux (f + 1) m = [hChar m] := by
  simp [hexAux, h]

/-- In the eight-digit range, the unpadded JavaScript hex rendering is
exactly the big-endian 32-bit rendering. -/
theorem hexAux_eq_hex8 (n : Nat) (h1 : 268435456 ≤ n) (h2 : n < 4294967296) :
    hexAux 64 n = hex8 n := by
  rw [hexAux_step 63 n (by omega),
      hexAux_step 62 (n / 16) (by omega),
      hexAux_step 61 (n / 16 / 16) (by omega),
      hexAux_step 60 (n / 16 / 16 / 16) (by omega),
      hexAux_step 59 (n / 16 / 16 / 16 / 16) (by omega),
      hexAux_step 58 (n / 16 / 16 / 16 / 16 / 16) (by omega),
      hexAux_step 57 (n / 16 / 16 / 16 / 16 / 16 / 16) (by omega),
      hexAux_base 56 (n / 16 / 16 / 16 / 16 / 16 / 16 / 16) (by omega)]
  rw [show n / 16 / 16 = n / 256 from by omega,
      show n / 256 / 16 = n / 4096 from by omega,
      show n / 4096 / 16 = n / 65536 from by omega,
      show n / 65536 / 16 = n / 1048576 from by omega,
      show n / 1048576 / 16 = n / 16777216 from by omega,
      show n / 16777216 / 16 = n / 268435456 from by omega,
      show n / 268435456 = n / 268435456 % 16 from by omega]
  simp [hex8]

/-! ## The datasource embedding (`src/datasource.ts`)

Text is `List Char`; the regex
`\x7b\x7b\s*__(time_from|time_to):date(?::([^\s\x7d]+))?\s*\x7d\x7d`
is embedded as the deterministic matcher `matchTimeTok` below.  The regex is
deterministic on every input: each `\s*` is a maximal whitespace run followed
by a character that is not whitespace (`_` or `\x7d`), so shrinking it on
backtracking can never succeed; the spec run `[^\s\x7d]+` is maximal and
followed by `\s*\x7d\x7d`, and a character given back on backtracking is
neither whitespace nor `\x7d`, so shrinking the run can never succeed either;
and when the character after `date` is `:`, skipping the optional group would
require `\s*\x7d\x7d` to match at that `:`, which always fails.  Hence the
greedy first-parse below is the regex's unique match behavior. -/

/-- Time range of a request: `from`/`to` as epoch milliseconds
(`timeRange.from.toDate().valueOf()` / `timeRange.to.toDate().valueOf()`). -/
structure TimeRange where
  fromMs : Int
  toMs : Int

/-- Which selector matched: `__time_from` or `__time_to`. -/
inductive TKind
  | tfrom
  | tto
deriving DecidableEq

/-- `timeToObjectId` (datasource.ts lines 62-65): unpadded hex of
`Math.floor(valueOf()/1000)` followed by sixteen `'0'` characters. -/
def timeToObjectId (t : Int) : List Char :=
  jsIntHex (t / 1000) ++ List.replicate 16 '0'

/-- JavaScript regex `\s` whitespace class (ECMA-262 WhiteSpace and
LineTerminator code points). -/
def isWsC (c : Char) : Bool :=
  let n := c.toNat
  n == 9 || n == 10 || n == 11 || n == 12 || n == 13 || n == 32 || n == 160 ||
  n == 5760 || (decide (8192 ≤ n) && decide (n ≤ 8202)) || n == 8232 ||
  n == 8233 || n == 8239 || n == 8287 || n == 12288 || n == 65279

/-- Character class `[^\s\x7d]` of the format-specifier capture group. -/
def isSpecC (c : Char) : Bool :=
  !(isWsC c) && c != '}'

/-- Consume an expected literal character sequence. -/
def consumeL : List Char → List Char → Option (List Char)
  | [], l => some l
  | _ :: _, [] => none
  | p :: ps, c :: cs => if c = p then consumeL ps cs else none

/-- Boolean literal-beginning test. -/
def startsWithL : List Char → List Char → Bool
  | [], _ => true
  | _ :: _, [] => false
  | p :: ps, c :: cs => c == p && startsWithL ps cs

/-- The characters of one selector alternative. -/
def selChars : TKind → List Char
  | .tfrom => ['t', 'i', 'm', 'e', '_', 'f', 'r', 'o', 'm']
  | .tto => ['t', 'i', 'm', 'e', '_', 't', 'o']

/-- Alternation `(time_from|time_to)`, first alternative tried first. -/
def matchSel (l : List Char) : Option (TKind × List Char) :=
  match consumeL (selChars .tfrom) l with
  | some r => some (.tfrom, r)
  | none =>
    match consumeL (selChars .tto) l with
    | some r => some (.tto, r)
    | none => none

/-- Match `:date(?::([^\s\x7d]+))?\s*\x7d\x7d` after the selector. -/
def matchTail (k : TKind) (l : List Char) :
    Option (TKind × Option (List Char) × List Char) :=
  (consumeL [':', 'd', 'a', 't', 'e'] l).bind fun l4 =>
    if l4.head? = some ':' then
      if (l4.tail.takeWhile isSpecC).isEmpty then none
      else
        (consumeL ['}', '}'] ((l4.tail.dropWhile isSpecC).dropWhile isWsC)).map
          fun rest => (k, some (l4.tail.takeWhile isSpecC), rest)
    else
      (consumeL ['}', '}'] (l4.dropWhile isWsC)).map fun rest => (k, none, rest)

/-- Try to match the whole time-token pattern at the head of the text,
returning the selector, the optional captured format specifier, and the text
after the match. -/
def matchTimeTok (l : List Char) : Option (TKind × Option (List Char) × List Char) :=
  match l with
  | '{' :: '{' :: l0 =>
    (consumeL ['_', '_'] (l0.dropWhile isWsC)).bind fun l2 =>
      (matchSel l2).bind fun p => matchTail p.1 p.2
  | _ => none

/-- Replacement text for one matched token: the body of the `replace`
callback (datasource.ts lines 39-57).  `fmt` models the `date-fns` `format`
function applied to an unrecognized specifier, kept opaque. -/
def renderTimeTok (fmt : Int → List Char → List Char) (tr : TimeRange)
    (k : TKind) (sp : Option (List Char)) : List Char :=
  let timeValue := match k with
    | .tfrom => tr.fromMs
    | .tto => tr.toMs
  match sp with
  | none => toISOChars timeValue
  | some s =>
    if s = "iso".toList then toISOChars timeValue
    else if s = "toObjectId".toList then timeToObjectId timeValue
    else if s = "seconds".toList then jsIntDec (timeValue / 1000)
    else if s = "milliseconds".toList then jsIntDec timeValue
    else fmt timeValue s

/-- Left-to-right global replacement scan with fuel (fuel `≥` text length
always suffices: every step consumes at least one character). -/
def expandAux (fmt : Int → List Char → List Char) (tr : TimeRange) :
    Nat → List Char → List Char
  | _, [] => []
  | 0, l => l
  | f + 1, c :: cs =>
    match matchTimeTok (c :: cs) with
    | some (k, sp, rest) => renderTimeTok fmt tr k sp ++ expandAux fmt tr f rest
    | none => c :: expandAux fmt tr f cs

/-- `replaceCustomFunctions` (datasource.ts lines 35-59): replace every
occurrence of the time-token regex in the aggregation text. -/
def replaceCustomFunctions (fmt : Int → List Char → List Char) (tr : TimeRange)
    (aggregation : List Char) : List Char :=
  expandAux fmt tr aggregation.length aggregation

/-! ## Query and response data model -/

/-- Modelled from the spec: the query-type enumeration imported from
`./types` (not under `src/`); the "tabular" variant is the one used for
variable queries, a time-series variant also exists. -/
inductive MongoDBQueryType
  | Table
  | Timeseries
deriving DecidableEq

/-- Modelled from the spec: the `MongoDBQuery` data model imported from
`./types` (not under `src/`), with exactly the fields `datasource.ts` reads
or writes; `database`, `collection` and `aggregation` may be absent. -/
structure MongoDBQuery where
  refId : String
  database : Option String
  collection : Option String
  queryType : MongoDBQueryType
  timestampField : String
  timestampFormat : String
  labelFields : List String
  valueFields : List String
  valueFieldTypes : List String
  aggregation : Option String
  autoTimeBound : Bool
  autoTimeSort : Bool
  schemaInference : Bool
  schemaInferenceDepth : Nat
deriving DecidableEq

/-- The record produced by `applyTemplateVariables`: the spread of the input
query with the three substituted fields always set to strings. -/
structure ProcessedQuery where
  refId : String
  database : String
  collection : String
  queryType : MongoDBQueryType
  timestampField : String
  timestampFormat : String
  labelFields : List String
  valueFields : List String
  valueFieldTypes : List String
  aggregation : String
  autoTimeBound : Bool
  autoTimeSort : Bool
  schemaInference : Bool
  schemaInferenceDepth : Nat
deriving DecidableEq

/-- JavaScript truthiness of an optional string field: `undefined` and the
empty string are falsy. -/
def jsTruthy : Option String → Bool
  | none => false
  | some s => s != ""

/-- `applyTemplateVariables` (datasource.ts lines 23-33).  `replace` models
`getTemplateSrv().replace` with its optional format argument (`some "json"`
for the aggregation field); scoped variables are opaque.  The input query is
read only; a fresh record is produced by the object spread. -/
def applyTemplateVariables {SV : Type} (replace : String → SV → Option String → String)
    (query : MongoDBQuery) (scopedVars : SV) : ProcessedQuery :=
  { refId := query.refId
    queryType := query.queryType
    timestampField := query.timestampField
    timestampFormat := query.timestampFormat
    labelFields := query.labelFields
    valueFields := query.valueFields
    valueFieldTypes := query.valueFieldTypes
    autoTimeBound := query.autoTimeBound
    autoTimeSort := query.autoTimeSort
    schemaInference := query.schemaInference
    schemaInferenceDepth := query.schemaInferenceDepth
    database :=
      if jsTruthy query.database then replace (query.database.getD "") scopedVars none else ""
    collection :=
      if jsTruthy query.collection then replace (query.collection.getD "") scopedVars none else ""
    aggregation :=
      if jsTruthy query.aggregation then
        replace (query.aggregation.getD "") scopedVars (some "json")
      else "" }

/-- Modelled from the spec: the `MongoDBVariableQuery` shape imported from
`./types` (not under `src/`), with the fields `metricFindQuery` reads. -/
structure MongoDBVariableQuery where
  database : Option String
  collection : Option String
  aggregation : Option String
  fieldName : String
  fieldType : String

/-- The synthetic single target built by `metricFindQuery`
(datasource.ts lines 84-99). -/
def buildVariableTarget (query : MongoDBVariableQuery) : MongoDBQuery :=
  { refId := "metricFindQuery"
    database := query.database
    collection := query.collection
    queryType := MongoDBQueryType.Table
    timestampField := ""
    timestampFormat := ""
    labelFields := []
    valueFields := [query.fieldName]
    valueFieldTypes := [query.fieldType]
    aggregation := query.aggregation
    autoTimeBound := false
    autoTimeSort := false
    schemaInference := false
    schemaInferenceDepth := 0 }

/-- The request fields relevant to this layer; the caller-supplied `options`
value is spread into the request before `targets` is overridden. -/
structure DataQueryRequest (SV : Type) where
  targets : List MongoDBQuery
  range : TimeRange
  scopedVars : SV
  requestId : String

/-- The request construction `{...options, targets: [target]}` of
`metricFindQuery` (datasource.ts lines 101-105). -/
def buildVariableRequest {SV : Type} (query : MongoDBVariableQuery)
    (options : DataQueryRequest SV) : DataQueryRequest SV :=
  { options with targets := [buildVariableTarget query] }

/-- An error descriptor carried by a response. -/
structure ErrDesc where
  message : String
deriving DecidableEq

/-- A `DataQueryResponse`: an optional list of data frames (`data`) and an
optional error descriptor. -/
structure DataQueryResponse (F : Type) where
  data : Option (List F)
  error : Option ErrDesc

/-- The `.then` continuation of `metricFindQuery` (datasource.ts lines
109-117): a truthy `error` throws with its message; otherwise a nonempty
`data` array converts its first frame (`frameToMetricFindValue`, modelled by
the opaque `conv`); otherwise the empty list is returned. -/
def handleMetricFindResponse {F V : Type} (conv : F → List V)
    (rsp : DataQueryResponse F) : Except String (List V) :=
  match rsp.error with
  | some e => Except.error e.message
  | none =>
    match rsp.data with
    | some (f :: _) => Except.ok (conv f)
    | _ => Except.ok []

/-- `metricFindQuery`'s resolution (datasource.ts lines 107-117): rxjs
`lastValueFrom` on the response stream, modelled by the finite list of the
stream's emissions up to completion — it resolves with the final emission
(rejecting with rxjs `EmptyError` if the stream completes without one), and
the result is then handled by the `.then` continuation. -/
def metricFindQuery {F V : Type} (conv : F → List V)
    (emissions : List (DataQueryResponse F)) : Except String (List V) :=
  match emissions.getLast? with
  | none => Except.error "no elements in sequence"
  | some rsp => handleMetricFindResponse conv rsp

/-! ## Matcher lemmas -/

/-- `dropWhile` step on a satisfying head. -/
theorem dropWhile_cons_pos (p : Char → Bool) (c : Char) (l : List Char) (h : p c = true) :
    (c :: l).dropWhile p = l.dropWhile p := by
  simp [List.dropWhile, h]

/-- `dropWhile` stops on a failing head. -/
theorem dropWhile_cons_neg (p : Char → Bool) (c : Char) (l : List Char) (h : p c = false) :
    (c :: l).dropWhile p = c :: l := by
  simp [List.dropWhile, h]

/-- `takeWhile` stops on a failing head. -/
theorem takeWhile_cons_neg (p : Char → Bool) (c : Char) (l : List Char) (h : p c = false) :
    (c :: l).takeWhile p = [] := by
  simp [List.takeWhile, h]

/-- `dropWhile` passes over a fully satisfying block. -/
theorem dropWhile_append_all (p : Char → Bool) (s r : List Char)
    (hs : ∀ c ∈ s, p c = true) : (s ++ r).dropWhile p = r.dropWhile p := by
  induction s with
  | nil => rfl
  | cons a s ih =>
    rw [List.cons_append, dropWhile_cons_pos p a _ (hs a (by simp))]
    exact ih fun c hc => hs c (by simp [hc])

/-- `takeWhile` keeps a fully satisfying block. -/
theorem takeWhile_append_all (p : Char → Bool) (s r : List Char)
    (hs : ∀ c ∈ s, p c = true) : (s ++ r).takeWhile p = s ++ r.takeWhile p := by
  induction s with
  | nil => rfl
  | cons a s ih =>
    rw [List.cons_append]
    simp only [List.takeWhile, hs a (by simp)]
    rw [ih fun c hc => hs c (by simp [hc])]
    rfl

/-- Consuming a literal block that is present succeeds. -/
theorem consumeL_self (p r : List Char) : consumeL p (p ++ r) = some r := by
  induction p with
  | nil => rfl
  | cons a p ih => simp [consumeL, ih]

/-- Consuming a literal block that is not present fails. -/
theorem consumeL_eq_none (p l : List Char) (h : startsWithL p l = false) :
    consumeL p l = none := by
  induction p generalizing l with
  | nil => simp [startsWithL] at h
  | cons a p ih =>
    cases l with
    | nil => rfl
    | cons c cs =>
      by_cases hc : c = a
      · subst hc
        simp only [startsWithL, beq_self_eq_true, Bool.true_and] at h
        simp [consumeL, ih cs h]
      · simp [consumeL, hc]

/-- Whitespace characters are not specifier characters. -/
theorem isSpecC_false_of_ws (c : Char) (h : isWsC c = true) : isSpecC c = false := by
  simp [isSpecC, h]

/-- A whitespace run before `\x7d\x7d` is skipped. -/
theorem dropWhile_ws_concat (w : List Char) (hw : ∀ c ∈ w, isWsC c = true) :
    (w ++ ['}', '}']).dropWhile isWsC = ['}', '}'] := by
  rw [dropWhile_append_all isWsC w _ hw]
  rfl

/-- The specifier run stops at the closing whitespace/brace. -/
theorem takeWhile_spec_concat (w : List Char) (hw : ∀ c ∈ w, isWsC c = true) :
    (w ++ ['}', '}']).takeWhile isSpecC = [] := by
  cases w with
  | nil => rfl
  | cons c w' =>
    rw [List.cons_append]
    exact takeWhile_cons_neg _ _ _ (isSpecC_false_of_ws c (hw c (by simp)))

/-- Dropping the specifier run and then whitespace lands on `\x7d\x7d`. -/
theorem drop_spec_ws_concat (w : List Char) (hw : ∀ c ∈ w, isWsC c = true) :
    ((w ++ ['}', '}']).dropWhile isSpecC).dropWhile isWsC = ['}', '}'] := by
  cases w with
  | nil => rfl
  | cons c w' =>
    rw [List.cons_append, dropWhile_cons_neg _ _ _ (isSpecC_false_of_ws c (hw c (by simp))),
      dropWhile_cons_pos _ _ _ (hw c (by simp))]
    exact dropWhile_ws_concat w' fun d hd => hw d (by simp [hd])

/-- The alternation matches its own selector and returns the rest. -/
theorem matchSel_self (k : TKind) (tail : List Char) :
    matchSel (selChars k ++ tail) = some (k, tail) := by
  cases k
  · simp [matchSel, consumeL_self]
  · have hne : consumeL (selChars .tfrom) (selChars .tto ++ tail) = none := by
      simp [selChars, consumeL]
    simp [matchSel, hne, consumeL_self]

/-- The text of a well-formed time token: optional whitespace runs `w1`/`w2`
just inside the braces, selector `k`, and optional format specifier `sp`. -/
def timePatternText (w1 : List Char) (k : TKind) (sp : Option (List Char))
    (w2 : List Char) : List Char :=
  '{' :: '{' :: (w1 ++ ('_' :: '_' :: (selChars k ++ ([':', 'd', 'a', 't', 'e'] ++
    ((match sp with | none => [] | some s => ':' :: s) ++ (w2 ++ ['}', '}']))))))

/-- A well-formed time token is matched in full, capturing exactly its
selector and specifier. -/
theorem matchTimeTok_wf (w1 w2 : List Char) (k : TKind) (sp : Option (List Char))
    (hw1 : ∀ c ∈ w1, isWsC c = true) (hw2 : ∀ c ∈ w2, isWsC c = true)
    (hsp : ∀ s ∈ sp, s ≠ [] ∧ ∀ c ∈ s, isSpecC c = true) :
    matchTimeTok (timePatternText w1 k sp w2) = some (k, sp, []) := by
  have hund : ∀ X : List Char, consumeL ['_', '_'] ('_' :: '_' :: X) = some X := fun _ => rfl
  have hdate : ∀ X : List Char,
      consumeL [':', 'd', 'a', 't', 'e'] (':' :: 'd' :: 'a' :: 't' :: 'e' :: X) = some X :=
    fun _ => rfl
  have h22 : ∀ X : List Char, consumeL ['}', '}'] ('}' :: '}' :: X) = some X := fun _ => rfl
  have hcat : ∀ X : List Char, [':', 'd', 'a', 't', 'e'] ++ X =
      ':' :: 'd' :: 'a' :: 't' :: 'e' :: X := fun _ => rfl
  rw [timePatternText.eq_def, matchTimeTok]
  rw [dropWhile_append_all isWsC w1 _ hw1, dropWhile_cons_neg isWsC '_' _ (by decide)]
  rw [hund]
  simp only [Option.some_bind]
  rw [matchSel_self]
  simp only [Option.some_bind]
  rw [matchTail, hcat, hdate]
  simp only [Option.some_bind]
  cases sp with
  | none =>
    simp only [List.nil_append]
    have hh : (w2 ++ ['}', '}']).head? ≠ some ':' := by
      cases w2 with
      | nil => decide
      | cons c w2' =>
        simp only [List.cons_append, List.head?_cons, ne_eq, Option.some.injEq]
        intro hc
        exact absurd (hw2 c (by simp)) (by rw [hc]; decide)
    rw [if_neg hh, dropWhile_ws_concat w2 hw2, h22]
    rfl
  | some s =>
    obtain ⟨hne, hs⟩ := hsp s rfl
    simp only [List.cons_append]
    rw [if_pos (show (':' :: (s ++ (w2 ++ ['}', '}']))).head? = some ':' from rfl)]
    rw [show (':' :: (s ++ (w2 ++ ['}', '}']))).tail = s ++ (w2 ++ ['}', '}']) from rfl]
    rw [takeWhile_append_all isSpecC s _ hs, takeWhile_spec_concat w2 hw2, List.append_nil,
      dropWhile_append_all isSpecC s _ hs, drop_spec_ws_concat w2 hw2]
    have hie : s.isEmpty = false := by
      cases s with
      | nil => exact absurd rfl hne
      | cons a s' => rfl
    rw [if_neg (by simp [hie]), h22]
    rfl

/-- A text that is exactly one well-matched token expands to exactly its
replacement. -/
theorem replace_single_tok (fmt : Int → List Char → List Char) (tr : TimeRange)
    (c : Char) (cs : List Char) (k : TKind) (sp : Option (List Char))
    (h : matchTimeTok (c :: cs) = some (k, sp, [])) :
    replaceCustomFunctions fmt tr (c :: cs) = renderTimeTok fmt tr k sp := by
  simp only [replaceCustomFunctions, List.length_cons, expandAux, h, List.append_nil]

/-- A text in which no position matches the token pattern expands to itself. -/
theorem expand_no_match (fmt : Int → List Char → List Char) (tr : TimeRange)
    (s : List Char) (hno : ∀ n < s.length, matchTimeTok (s.drop n) = none) :
    replaceCustomFunctions fmt tr s = s := by
  rw [replaceCustomFunctions]
  revert hno
  induction s with
  | nil => intro _; rfl
  | cons c cs ih =>
    intro hno
    have h0 : matchTimeTok (c :: cs) = none := by simpa using hno 0 (by simp)
    have ih' := ih fun n hn => by simpa using hno (n + 1) (by simpa)
    simp only [List.length_cons, expandAux, h0, ih']

/-- An occurrence that opens with braces, whitespace and a selector but is
not followed by `:date` is rejected by the matcher. -/
theorem matchTimeTok_no_date (w tail : List Char) (k : TKind)
    (hw : ∀ c ∈ w, isWsC c = true)
    (hd : startsWithL [':', 'd', 'a', 't', 'e'] tail = false) :
    matchTimeTok ('{' :: '{' :: (w ++ ('_' :: '_' :: (selChars k ++ tail)))) = none := by
  have hund : ∀ X : List Char, consumeL ['_', '_'] ('_' :: '_' :: X) = some X := fun _ => rfl
  rw [matchTimeTok]
  rw [dropWhile_append_all isWsC w _ hw, dropWhile_cons_neg isWsC '_' _ (by decide)]
  rw [hund]
  simp only [Option.some_bind]
  rw [matchSel_self]
  simp only [Option.some_bind]
  rw [matchTail, consumeL_eq_none _ _ hd]
  rfl

/-- An occurrence whose specifier colon is followed by no specifier
character is rejected by the matcher. -/
theorem matchTimeTok_empty_spec (w rest : List Char) (k : TKind)
    (hw : ∀ c ∈ w, isWsC c = true)
    (hr : rest.takeWhile isSpecC = []) :
    matchTimeTok ('{' :: '{' :: (w ++ ('_' :: '_' :: (selChars k ++
      (':' :: 'd' :: 'a' :: 't' :: 'e' :: ':' :: rest))))) = none := by
  have hund : ∀ X : List Char, consumeL ['_', '_'] ('_' :: '_' :: X) = some X := fun _ => rfl
  have hdate : ∀ X : List Char,
      consumeL [':', 'd', 'a', 't', 'e'] (':' :: 'd' :: 'a' :: 't' :: 'e' :: X) = some X :=
    fun _ => rfl
  rw [matchTimeTok]
  rw [dropWhile_append_all isWsC w _ hw, dropWhile_cons_neg isWsC '_' _ (by decide)]
  rw [hund]
  simp only [Option.some_bind]
  rw [matchSel_self]
  simp only [Option.some_bind]
  rw [matchTail, hdate]
  simp only [Option.some_bind]
  rw [if_pos (show (':' :: rest).head? = some ':' from rfl)]
  rw [show (':' :: rest).tail = rest from rfl, hr]
  rfl

/-- Expansion of a text that is exactly one well-formed token is exactly its
replacement. -/
theorem replace_pattern (fmt : Int → List Char → List Char) (tr : TimeRange)
    (w1 w2 : List Char) (k : TKind) (sp : Option (List Char))
    (hw1 : ∀ c ∈ w1, isWsC c = true) (hw2 : ∀ c ∈ w2, isWsC c = true)
    (hsp : ∀ s ∈ sp, s ≠ [] ∧ ∀ c ∈ s, isSpecC c = true) :
    replaceCustomFunctions fmt tr (timePatternText w1 k sp w2) =
      renderTimeTok fmt tr k sp := by
  have h := matchTimeTok_wf w1 w2 k sp hw1 hw2 hsp
  rw [timePatternText.eq_def] at h ⊢
  exact replace_single_tok fmt tr _ _ k sp h


/-! ## Grounding examples for the platform model -/

/-- Rendering ground truth: epoch milliseconds 1609459200000 renders as
2021-01-01T00:00:00.000Z, as `Date.prototype.toISOString` does. -/
theorem toISOChars_example :
    toISOChars 1609459200000 = "2021-01-01T00:00:00.000Z".toList := by decide

/-- Rendering ground truth across the era boundary: epoch milliseconds
-62135596800000 renders as 0001-01-01T00:00:00.000Z. -/
theorem toISOChars_example_ancient :
    toISOChars (-62135596800000) = "0001-01-01T00:00:00.000Z".toList := by decide

/-! ## Claim theorems -/

/-- C3: with `from` = 2021-01-01T00:00:00.000Z (epoch milliseconds
1609459200000, epoch seconds 1609459200 = hex 5fee6600), expanding
`{{__time_from:date:toObjectId}}` yields exactly the 24-character string
"5fee66000000000000000000", for any formatter and any `to` bound. -/
theorem c3_toObjectId_concrete (fmt : Int → List Char → List Char) (toMs : Int) :
    replaceCustomFunctions fmt ⟨1609459200000, toMs⟩
      "\x7b\x7b__time_from:date:toObjectId\x7d\x7d".toList =
    "5fee66000000000000000000".toList := by
  have he : "\x7b\x7b__time_from:date:toObjectId\x7d\x7d".toList =
      timePatternText [] TKind.tfrom (some "toObjectId".toList) [] := by decide
  rw [he, replace_pattern fmt ⟨1609459200000, toMs⟩ [] [] TKind.tfrom
    (some "toObjectId".toList) (by simp) (by simp)
    (fun s hs => by cases hs; exact ⟨by decide, by decide⟩)]
  have h1 : renderTimeTok fmt (⟨1609459200000, toMs⟩ : TimeRange) TKind.tfrom
      (some "toObjectId".toList) = timeToObjectId 1609459200000 := rfl
  rw [h1]
  rfl

/-- C1 counterexample: at the instant 0 (1970-01-01T00:00:00Z, a valid
instant), the `toObjectId` expansion is the 17-character string
"00000000000000000" — not a 24-character string as the claim asserts for
every instant (JavaScript `toString(16)` does not zero-pad). -/
theorem c1_counterexample :
    (replaceCustomFunctions (fun _ _ => []) ⟨0, 0⟩
      "\x7b\x7b__time_from:date:toObjectId\x7d\x7d".toList).length = 17 ∧
    (replaceCustomFunctions (fun _ _ => []) ⟨0, 0⟩
      "\x7b\x7b__time_from:date:toObjectId\x7d\x7d".toList).length ≠ 24 := by
  decide

/-- C1 (amended): for every instant whose epoch-second value
`floor(epochMillis/1000)` lies in `[16^7, 16^8)` (1978-07-04T21:24:16Z
through 2106-02-07T06:28:15Z), expanding `{{__time_from:date:toObjectId}}`
yields the big-endian 8-hex-digit rendering of that value as a 32-bit
unsigned integer followed by sixteen '0' characters — 24 characters in
all. -/
theorem c1_toObjectId (fmt : Int → List Char → List Char) (tr : TimeRange)
    (h1 : 268435456 ≤ tr.fromMs / 1000) (h2 : tr.fromMs / 1000 < 4294967296) :
    replaceCustomFunctions fmt tr "\x7b\x7b__time_from:date:toObjectId\x7d\x7d".toList =
      hex8 ((tr.fromMs / 1000).toNat % 4294967296) ++ List.replicate 16 '0' ∧
    (replaceCustomFunctions fmt tr
      "\x7b\x7b__time_from:date:toObjectId\x7d\x7d".toList).length = 24 := by
  have hred : replaceCustomFunctions fmt tr
      "\x7b\x7b__time_from:date:toObjectId\x7d\x7d".toList =
      timeToObjectId tr.fromMs ++ [] := rfl
  rw [List.append_nil] at hred
  have hmain : replaceCustomFunctions fmt tr
      "\x7b\x7b__time_from:date:toObjectId\x7d\x7d".toList =
      hex8 ((tr.fromMs / 1000).toNat % 4294967296) ++ List.replicate 16 '0' := by
    rw [hred, timeToObjectId, jsIntHex, if_neg (by omega)]
    rw [hexAux_eq_hex8 (tr.fromMs / 1000).toNat (by omega) (by omega)]
    rw [Nat.mod_eq_of_lt (by omega)]
  refine ⟨hmain, ?_⟩
  rw [hmain]
  simp [hex8]

/-- C1 witness: the amended statement evaluated at the 2021-01-01 instant. -/
theorem c1_witness :
    268435456 ≤ (1609459200000 : Int) / 1000 ∧
    replaceCustomFunctions (fun _ _ => []) ⟨1609459200000, 0⟩
      "\x7b\x7b__time_from:date:toObjectId\x7d\x7d".toList =
      hex8 (((1609459200000 : Int) / 1000).toNat % 4294967296) ++
        List.replicate 16 '0' :=
  ⟨by decide,
   (c1_toObjectId (fun _ _ => []) ⟨1609459200000, 0⟩ (by decide) (by decide)).1⟩

/-- C4: expanding `{{__time_from:date}}` with `from` = t produces exactly
the ISO-8601/UTC millisecond rendering of t, and that string parses back to
exactly t, for every representable instant t. -/
theorem c4_iso_roundtrip (fmt : Int → List Char → List Char) (tr : TimeRange)
    (h : tr.fromMs.natAbs ≤ 8640000000000000) :
    replaceCustomFunctions fmt tr "\x7b\x7b__time_from:date\x7d\x7d".toList =
      toISOChars tr.fromMs ∧
    parseIsoChars (replaceCustomFunctions fmt tr
      "\x7b\x7b__time_from:date\x7d\x7d".toList) = some tr.fromMs := by
  have hred : replaceCustomFunctions fmt tr "\x7b\x7b__time_from:date\x7d\x7d".toList =
      toISOChars tr.fromMs ++ [] := rfl
  rw [List.append_nil] at hred
  exact ⟨hred, by rw [hred]; exact parseIso_toISO tr.fromMs h⟩

/-- C4 witness: the round trip evaluated at the 2021-01-01 instant. -/
theorem c4_witness :
    (1609459200000 : Int).natAbs ≤ 8640000000000000 ∧
    parseIsoChars (replaceCustomFunctions (fun _ _ => []) ⟨1609459200000, 0⟩
      "\x7b\x7b__time_from:date\x7d\x7d".toList) = some 1609459200000 :=
  ⟨by decide,
   (c4_iso_roundtrip (fun _ _ => []) ⟨1609459200000, 0⟩ (by decide)).2⟩

/-- C8 counterexample: inserting whitespace between the selector and `:date`
(`{{ __time_from :date }}`) defeats the match, so the text is left unchanged
while its whitespace-free form expands; the claim that whitespace between
the tokens themselves does not change the expansion fails. -/
theorem c8_counterexample :
    replaceCustomFunctions (fun _ _ => []) ⟨1609459200000, 0⟩
      "\x7b\x7b __time_from :date \x7d\x7d".toList =
      "\x7b\x7b __time_from :date \x7d\x7d".toList ∧
    replaceCustomFunctions (fun _ _ => []) ⟨1609459200000, 0⟩
      "\x7b\x7b__time_from:date\x7d\x7d".toList =
      "2021-01-01T00:00:00.000Z".toList ∧
    replaceCustomFunctions (fun _ _ => []) ⟨1609459200000, 0⟩
        "\x7b\x7b __time_from :date \x7d\x7d".toList ≠
      replaceCustomFunctions (fun _ _ => []) ⟨1609459200000, 0⟩
        "\x7b\x7b__time_from:date\x7d\x7d".toList := by
  decide

/-- C8 (amended): whitespace is permitted and ignored only in the two
positions immediately inside the braces; inserting whitespace runs there
leaves the expansion identical to the whitespace-free form, for every
selector and well-formed specifier. -/
theorem c8_whitespace (fmt : Int → List Char → List Char) (tr : TimeRange)
    (w1 w2 : List Char) (k : TKind) (sp : Option (List Char))
    (hw1 : ∀ c ∈ w1, isWsC c = true) (hw2 : ∀ c ∈ w2, isWsC c = true)
    (hsp : ∀ s ∈ sp, s ≠ [] ∧ ∀ c ∈ s, isSpecC c = true) :
    replaceCustomFunctions fmt tr (timePatternText w1 k sp w2) =
      replaceCustomFunctions fmt tr (timePatternText [] k sp []) := by
  rw [replace_pattern fmt tr w1 w2 k sp hw1 hw2 hsp,
    replace_pattern fmt tr [] [] k sp (by simp) (by simp) hsp]

/-- C8 witness: a single space on each side of `__time_from:date` expands as
the space-free form does. -/
theorem c8_witness :
    (∀ c ∈ [' '], isWsC c = true) ∧
    replaceCustomFunctions (fun _ _ => []) ⟨0, 0⟩
        (timePatternText [' '] TKind.tfrom none [' ']) =
      replaceCustomFunctions (fun _ _ => []) ⟨0, 0⟩
        (timePatternText [] TKind.tfrom none []) :=
  ⟨by decide,
   c8_whitespace (fun _ _ => []) ⟨0, 0⟩ [' '] [' '] TKind.tfrom none
     (by decide) (by decide) (by simp)⟩

/-- C7: an occurrence that opens with double braces, optional whitespace and
a time selector but lacks the `:date` suffix is not matched, and a text with
no match at any position is returned byte-for-byte unchanged — the expansion
is a total function, so this is not an error. -/
theorem c7_malformed (fmt : Int → List Char → List Char) (tr : TimeRange) :
    (∀ (w tail : List Char) (k : TKind), (∀ c ∈ w, isWsC c = true) →
      startsWithL [':', 'd', 'a', 't', 'e'] tail = false →
      matchTimeTok ('{' :: '{' :: (w ++ ('_' :: '_' :: (selChars k ++ tail)))) = none) ∧
    (∀ s : List Char, (∀ n < s.length, matchTimeTok (s.drop n) = none) →
      replaceCustomFunctions fmt tr s = s) :=
  ⟨fun w tail k hw hd => matchTimeTok_no_date w tail k hw hd,
   fun s hno => expand_no_match fmt tr s hno⟩

/-- Bridge from a kernel-checkable boolean scan to the no-match condition. -/
theorem no_match_of_scan (s : List Char)
    (h : (List.range s.length).all (fun n => (matchTimeTok (s.drop n)).isNone) = true) :
    ∀ n < s.length, matchTimeTok (s.drop n) = none := by
  intro n hn
  have hm := List.all_eq_true.mp h n (List.mem_range.mpr hn)
  simpa [Option.isNone_iff_eq_none] using hm

/-- C7 witness: the malformed occurrence `{{__time_from}}` is unmatched and
passes through unchanged. -/
theorem c7_witness :
    replaceCustomFunctions (fun _ _ => []) ⟨0, 0⟩ "\x7b\x7b__time_from\x7d\x7d".toList =
      "\x7b\x7b__time_from\x7d\x7d".toList ∧
    matchTimeTok "\x7b\x7b__time_from\x7d\x7d".toList = none :=
  ⟨(c7_malformed (fun _ _ => []) ⟨0, 0⟩).2 _ (no_match_of_scan _ (by decide)),
   (c7_malformed (fun _ _ => []) ⟨0, 0⟩).1 [] ['}', '}'] TKind.tfrom
     (by simp) (by decide)⟩

/-- C10: a macro whose specifier colon is followed by no specifier character
is not matched — the expander does not treat it as the absent-specifier ISO
case — and such text (e.g. `{{__time_from:date:}}`) is left literally in the
output. -/
theorem c10_empty_spec (fmt : Int → List Char → List Char) (tr : TimeRange) :
    (∀ (w rest : List Char) (k : TKind), (∀ c ∈ w, isWsC c = true) →
      rest.takeWhile isSpecC = [] →
      matchTimeTok ('{' :: '{' :: (w ++ ('_' :: '_' :: (selChars k ++
        (':' :: 'd' :: 'a' :: 't' :: 'e' :: ':' :: rest))))) = none) ∧
    replaceCustomFunctions fmt tr "\x7b\x7b__time_from:date:\x7d\x7d".toList =
      "\x7b\x7b__time_from:date:\x7d\x7d".toList :=
  ⟨fun w rest k hw hr => matchTimeTok_empty_spec w rest k hw hr, rfl⟩

/-- C10 witness: `{{__time_from:date:}}` is unmatched and unchanged. -/
theorem c10_witness :
    matchTimeTok "\x7b\x7b__time_from:date:\x7d\x7d".toList = none ∧
    replaceCustomFunctions (fun _ _ => []) ⟨0, 0⟩
      "\x7b\x7b__time_from:date:\x7d\x7d".toList =
      "\x7b\x7b__time_from:date:\x7d\x7d".toList :=
  ⟨(c10_empty_spec (fun _ _ => []) ⟨0, 0⟩).1 [] ['}', '}'] TKind.tfrom
     (by simp) (by decide),
   (c10_empty_spec (fun _ _ => []) ⟨0, 0⟩).2⟩

/-- C6: template-variable resolution builds a fresh record (the input query
is never mutated — the embedding is a pure function of it); every field
other than database, collection and aggregation is identical by value to the
input's, and an absent or empty optional field becomes the empty string
rather than an error. -/
theorem c6_applyTemplateVariables {SV : Type}
    (replace : String → SV → Option String → String) (q : MongoDBQuery) (sv : SV) :
    (applyTemplateVariables replace q sv).refId = q.refId ∧
    (applyTemplateVariables replace q sv).queryType = q.queryType ∧
    (applyTemplateVariables replace q sv).timestampField = q.timestampField ∧
    (applyTemplateVariables replace q sv).timestampFormat = q.timestampFormat ∧
    (applyTemplateVariables replace q sv).labelFields = q.labelFields ∧
    (applyTemplateVariables replace q sv).valueFields = q.valueFields ∧
    (applyTemplateVariables replace q sv).valueFieldTypes = q.valueFieldTypes ∧
    (applyTemplateVariables replace q sv).autoTimeBound = q.autoTimeBound ∧
    (applyTemplateVariables replace q sv).autoTimeSort = q.autoTimeSort ∧
    (applyTemplateVariables replace q sv).schemaInference = q.schemaInference ∧
    (applyTemplateVariables replace q sv).schemaInferenceDepth = q.schemaInferenceDepth ∧
    ((q.database = none ∨ q.database = some "") →
      (applyTemplateVariables replace q sv).database = "") ∧
    ((q.collection = none ∨ q.collection = some "") →
      (applyTemplateVariables replace q sv).collection = "") ∧
    ((q.aggregation = none ∨ q.aggregation = some "") →
      (applyTemplateVariables replace q sv).aggregation = "") := by
  refine ⟨rfl, rfl, rfl, rfl, rfl, rfl, rfl, rfl, rfl, rfl, rfl, ?_, ?_, ?_⟩ <;>
    (rintro (h | h) <;> simp [applyTemplateVariables, jsTruthy, h])

/-- C6 witness: a query with absent database and empty collection resolves
to empty strings with its other fields preserved. -/
theorem c6_witness :
    (applyTemplateVariables (fun s _ _ => s)
      { refId := "A", database := none, collection := some "",
        queryType := MongoDBQueryType.Table, timestampField := "ts",
        timestampFormat := "", labelFields := [], valueFields := [],
        valueFieldTypes := [], aggregation := none, autoTimeBound := true,
        autoTimeSort := false, schemaInference := true,
        schemaInferenceDepth := 3 } ()).refId = "A" ∧
    (applyTemplateVariables (fun s _ _ => s)
      { refId := "A", database := none, collection := some "",
        queryType := MongoDBQueryType.Table, timestampField := "ts",
        timestampFormat := "", labelFields := [], valueFields := [],
        valueFieldTypes := [], aggregation := none, autoTimeBound := true,
        autoTimeSort := false, schemaInference := true,
        schemaInferenceDepth := 3 } ()).database = "" := by
  have h := @c6_applyTemplateVariables Unit (fun s _ _ => s)
    { refId := "A", database := none, collection := some "",
      queryType := MongoDBQueryType.Table, timestampField := "ts",
      timestampFormat := "", labelFields := [], valueFields := [],
      valueFieldTypes := [], aggregation := none, autoTimeBound := true,
      autoTimeSort := false, schemaInference := true,
      schemaInferenceDepth := 3 } ()
  exact ⟨h.1, h.2.2.2.2.2.2.2.2.2.2.2.1 (Or.inl rfl)⟩

/-- C5: on a single-emission stream, a response with no error descriptor and
zero result frames succeeds with the empty list, and a response carrying an
error descriptor fails with exactly the descriptor's message. -/
theorem c5_empty_and_error {F V : Type} (conv : F → List V)
    (rsp : DataQueryResponse F) :
    (rsp.error = none → (rsp.data = none ∨ rsp.data = some []) →
      metricFindQuery conv [rsp] = Except.ok []) ∧
    (∀ e, rsp.error = some e →
      metricFindQuery conv [rsp] = Except.error e.message) := by
  constructor
  · intro he hd
    rcases hd with hd | hd <;>
      simp [metricFindQuery, handleMetricFindResponse, he, hd]
  · intro e he
    simp [metricFindQuery, handleMetricFindResponse, he]

/-- C5 witness: the empty-result and error cases evaluated concretely. -/
theorem c5_witness :
    metricFindQuery (fun _ : Nat => ([] : List Nat)) [⟨some [], none⟩] =
      Except.ok [] ∧
    metricFindQuery (fun _ : Nat => ([] : List Nat)) [⟨none, some ⟨"boom"⟩⟩] =
      Except.error "boom" :=
  ⟨(c5_empty_and_error (fun _ : Nat => ([] : List Nat)) ⟨some [], none⟩).1 rfl (Or.inr rfl),
   (c5_empty_and_error (fun _ : Nat => ([] : List Nat)) ⟨none, some ⟨"boom"⟩⟩).2 ⟨"boom"⟩ rfl⟩

/-- C2 counterexample: with two emissions — first a clean empty response,
then an error — the operation fails with the second emission's message:
`lastValueFrom` resolves with the last emission, not the first, so a later
emission does change the result. -/
theorem c2_counterexample :
    metricFindQuery (fun _ : Nat => ([] : List Nat))
      [⟨some [], none⟩, ⟨none, some ⟨"boom"⟩⟩] = Except.error "boom" ∧
    metricFindQuery (fun _ : Nat => ([] : List Nat)) [⟨some [], none⟩] =
      Except.ok [] ∧
    metricFindQuery (fun _ : Nat => ([] : List Nat))
        [⟨some [], none⟩, ⟨none, some ⟨"boom"⟩⟩] ≠
      metricFindQuery (fun _ : Nat => ([] : List Nat)) [⟨some [], none⟩] := by
  refine ⟨rfl, rfl, ?_⟩
  simp [metricFindQuery, handleMetricFindResponse, List.getLast?]

/-- C2 (amended): the variable-query result is determined by the last
emission alone — the operation resolves at stream completion with the final
response, and earlier emissions do not affect the result. -/
theorem c2_last_determines {F V : Type} (conv : F → List V)
    (init : List (DataQueryResponse F)) (r : DataQueryResponse F) :
    metricFindQuery conv (init ++ [r]) = handleMetricFindResponse conv r := by
  simp [metricFindQuery, List.getLast?_concat]

/-- C9: the request handed to the query pipeline by the variable query has
exactly one target — the synthetic target with refId "metricFindQuery" — any
caller-supplied target list in `options` being discarded, while the other
request fields are taken from `options`. -/
theorem c9_single_target {SV : Type} (q : MongoDBVariableQuery)
    (options : DataQueryRequest SV) :
    (buildVariableRequest q options).targets = [buildVariableTarget q] ∧
    (buildVariableTarget q).refId = "metricFindQuery" ∧
    (buildVariableRequest q options).range = options.range ∧
    (buildVariableRequest q options).scopedVars = options.scopedVars ∧
    (buildVariableRequest q options).requestId = options.requestId :=
  ⟨rfl, rfl, rfl, rfl, rfl⟩

end MongoDS
